import Mathlib

/-!
Shallow embedding of the rust-file-manager library (src/lib.rs).

The host filesystem is modelled as a partial map from paths to file
contents; file contents are lists of characters (one per byte of the
UTF-8 text the library passes through unchanged).  Each library
function is translated into an explicit state-passing Lean function
on this filesystem model.
-/

namespace FileManager

/-- A filesystem path, as the Rust code's string path argument. -/
abbrev Path := String

/-- File contents: the sequence of characters stored in a file. -/
abbrev Contents := List Char

/-- The filesystem: a partial map from paths to file contents.
`none` means no file exists at that path. -/
abbrev FS := Path → Option Contents

/-- Update the filesystem so that path p holds contents c. -/
def FS.update (fs : FS) (p : Path) (c : Contents) : FS :=
  fun q => if q = p then some c else fs q

/-- The filesystem with no files at all. -/
def FS.empty : FS := fun _ => none

/-- The newline terminator that the writeln macro appends in
append_to_file (one terminator character on the modelled platform). -/
def newline : Contents := ['\n']

/-- The error kinds an OS-level open can fail with. -/
inductive IOError where
  | notFound
  | permissionDenied
  | isDirectory
  | other
deriving DecidableEq

/-- A buffered read handle: the opened file's contents together with
the current read position in bytes. -/
structure ReadHandle where
  contents : Contents
  pos : Nat
deriving DecidableEq

/-- A write handle bound to a path, with the current write position.
Writes through it overwrite in place starting at this position. -/
structure WriteHandle where
  path : Path
  pos : Nat
deriving DecidableEq

/-- An append handle bound to a path: every write lands at end-of-file,
so no position is tracked. -/
structure AppendHandle where
  path : Path
deriving DecidableEq

/-- Models std File::open inside open_file: succeeds with a reader at
byte offset 0 when a file exists at the path, and otherwise fails with
an I/O error. -/
def osFileOpen (fs : FS) (p : Path) : Except IOError ReadHandle :=
  match fs p with
  | some c => Except.ok (ReadHandle.mk c 0)
  | none => Except.error IOError.notFound

/-- The if-let-Ok pattern in open_file: an Ok handle is kept, and any
error value is collapsed to none, its cause discarded. -/
def open_file_from (r : Except IOError ReadHandle) : Option ReadHandle :=
  match r with
  | Except.ok f => some f
  | Except.error _ => none

/-- open_file from src/lib.rs: attempt to open the file at the path
and return a buffered reader, or none on any failure. -/
def open_file (fs : FS) (p : Path) : Option ReadHandle :=
  open_file_from (osFileOpen fs p)

/-- open_file_for_writing from src/lib.rs: OpenOptions with write,
create, and the given truncate flag.  Creates an empty file when the
path has none; truncates an existing file when the flag is set;
otherwise leaves the contents in place.  The handle starts at
position 0. -/
def open_file_for_writing (fs : FS) (p : Path) (truncate : Bool) :
    FS × WriteHandle :=
  let fs1 : FS :=
    match fs p with
    | none => fs.update p []
    | some _ => if truncate then fs.update p [] else fs
  (fs1, WriteHandle.mk p 0)

/-- open_file_for_appending from src/lib.rs: OpenOptions with append
and create.  Creates an empty file when the path has none and leaves
existing contents untouched. -/
def open_file_for_appending (fs : FS) (p : Path) : FS × AppendHandle :=
  let fs1 : FS :=
    match fs p with
    | none => fs.update p []
    | some _ => fs
  (fs1, AppendHandle.mk p)

/-- Writing all bytes of c through a write handle: the bytes overwrite
the file in place from the handle's position, extending the file when
they run past its end, and the position advances by the length of c. -/
def WriteHandle.write_all (h : WriteHandle) (fs : FS) (c : Contents) :
    FS × WriteHandle :=
  let d := (fs h.path).getD []
  let d1 := d.take h.pos ++ c ++ d.drop (h.pos + c.length)
  (fs.update h.path d1, WriteHandle.mk h.path (h.pos + c.length))

/-- Writing all bytes of c through an append handle: the bytes always
land at the current end-of-file. -/
def AppendHandle.write_all (h : AppendHandle) (fs : FS) (c : Contents) :
    FS :=
  fs.update h.path ((fs h.path).getD [] ++ c)

/-- Flushing submits buffered bytes to the OS; on the modelled
filesystem state it changes nothing. -/
def flush (fs : FS) : FS := fs

/-- open_buffered_file_writer from src/lib.rs: a BufWriter over
open_file_for_writing. -/
def open_buffered_file_writer (fs : FS) (p : Path) (truncate : Bool) :
    FS × WriteHandle :=
  open_file_for_writing fs p truncate

/-- open_buffered_file_appender from src/lib.rs: a BufWriter over
open_file_for_appending. -/
def open_buffered_file_appender (fs : FS) (p : Path) :
    FS × AppendHandle :=
  open_file_for_appending fs p

/-- write_to_file from src/lib.rs: open for writing with the truncate
flag, write all bytes of contents, flush. -/
def write_to_file (fs : FS) (p : Path) (truncate : Bool) (c : Contents) :
    FS :=
  let o := open_file_for_writing fs p truncate
  let w := o.2.write_all o.1 c
  flush w.1

/-- append_to_file from src/lib.rs: open for appending, build the
string contents-plus-newline with the writeln macro, write all its
bytes, flush. -/
def append_to_file (fs : FS) (p : Path) (c : Contents) : FS :=
  let o := open_file_for_appending fs p
  let s := c ++ newline
  flush (o.2.write_all o.1 s)

/-- create_file from src/lib.rs: when a file exists at the path and
truncate is false, do nothing; otherwise File::create, which creates
the file and truncates any existing content to zero length. -/
def create_file (fs : FS) (p : Path) (truncate : Bool) : FS :=
  if (fs p).isSome && !truncate then fs
  else fs.update p []

/-- Split contents at every newline character, keeping empty pieces,
as the separator-splitting step of BufRead lines. -/
def splitNl : Contents → List Contents
  | [] => [[]]
  | a :: rest =>
    if a = '\n' then [] :: splitNl rest
    else
      match splitNl rest with
      | [] => [[a]]
      | l :: ls => (a :: l) :: ls

/-- Strip one trailing carriage return from a line, as BufRead lines
does after splitting at a newline. -/
def stripCR (l : Contents) : Contents :=
  if l.getLast? = some '\r' then l.dropLast else l

/-- The lines an iterator over BufRead lines yields for these
contents: split at newlines, drop the empty piece a trailing newline
leaves, strip one trailing carriage return from each line. -/
def linesOf (c : Contents) : List Contents :=
  let parts := splitNl c
  let kept := if parts.getLast? = some [] then parts.dropLast else parts
  kept.map stripCR

theorem FS.update_apply (fs : FS) (p : Path) (c : Contents) (q : Path) :
    FS.update fs p c q = if q = p then some c else fs q := rfl

theorem FS.update_self (fs : FS) (p : Path) (c : Contents) :
    FS.update fs p c p = some c := by
  simp [FS.update]

/-- A concrete path used by the closed instances below. -/
def p0 : Path := "p"

/-- A concrete filesystem holding one file at p0 with contents "a". -/
def fs0 : FS := FS.update FS.empty p0 ['a']

/-- Appending always leaves the old contents followed by the new
contents and one newline terminator. -/
theorem append_to_file_apply (fs : FS) (p : Path) (c : Contents) :
    (append_to_file fs p c) p = some ((fs p).getD [] ++ (c ++ newline)) := by
  cases h : fs p <;>
    simp [append_to_file, open_file_for_appending, AppendHandle.write_all,
      flush, h, FS.update]

/-- Writing with truncation always leaves exactly the written contents. -/
theorem write_to_file_truncate_apply (fs : FS) (p : Path) (c : Contents) :
    (write_to_file fs p true c) p = some c := by
  cases h : fs p <;>
    simp [write_to_file, open_file_for_writing, WriteHandle.write_all,
      flush, h, FS.update]

/-- Splitting at newlines peels off a newline-free first chunk. -/
theorem splitNl_append_newline (l rest : Contents) (h : '\n' ∉ l) :
    splitNl (l ++ '\n' :: rest) = l :: splitNl rest := by
  induction l with
  | nil => simp [splitNl]
  | cons a l ih =>
    have ha : a ≠ '\n' := fun e => h (by simp [e])
    have h2 : '\n' ∉ l := fun hm => h (List.mem_cons_of_mem _ hm)
    simp [splitNl, ha, ih h2]

/-- Stripping a trailing carriage return changes nothing when the line
does not end in one. -/
theorem stripCR_id (l : Contents) (h : l.getLast? ≠ some '\r') :
    stripCR l = l := by
  simp [stripCR, h]

/-- Two newline-terminated lines read back as exactly those two lines
when neither contains a newline nor ends in a carriage return. -/
theorem linesOf_two (L1 L2 : Contents) (h1 : '\n' ∉ L1) (h2 : '\n' ∉ L2)
    (h3 : L1.getLast? ≠ some '\r') (h4 : L2.getLast? ≠ some '\r') :
    linesOf (L1 ++ '\n' :: (L2 ++ ['\n'])) = [L1, L2] := by
  have e2 : splitNl (L2 ++ '\n' :: []) = L2 :: splitNl [] :=
    splitNl_append_newline L2 [] h2
  have e1 : splitNl (L1 ++ '\n' :: (L2 ++ ['\n'])) =
      L1 :: splitNl (L2 ++ ['\n']) :=
    splitNl_append_newline L1 (L2 ++ ['\n']) h1
  simp only [linesOf, e1, e2, splitNl]
  simp [stripCR_id _ h3, stripCR_id _ h4]

/-- C1: write(path, true, C) leaves the file holding exactly C - prior
content fully discarded, no trailing newline added - and reading the
file afterwards yields a handle on exactly C at offset 0. -/
theorem write_truncate_reads_back (fs : FS) (p : Path) (c : Contents) :
    (write_to_file fs p true c) p = some c
    ∧ open_file (write_to_file fs p true c) p = some (ReadHandle.mk c 0) := by
  have h1 := write_to_file_truncate_apply fs p c
  exact ⟨h1, by simp [open_file, osFileOpen, open_file_from, h1]⟩

/-- C2: append writes the contents followed by exactly one newline
terminator after the old contents, while write adds no newline: with
truncation the file holds exactly the contents, and without truncation
it holds the contents followed only by the untouched tail of the old
contents. -/
theorem append_adds_newline_write_does_not (fs : FS) (p : Path) (c : Contents) :
    (append_to_file fs p c) p = some ((fs p).getD [] ++ (c ++ newline))
    ∧ (write_to_file fs p true c) p = some c
    ∧ (write_to_file fs p false c) p
        = some (c ++ ((fs p).getD []).drop c.length) := by
  refine ⟨append_to_file_apply fs p c, write_to_file_truncate_apply fs p c, ?_⟩
  cases h : fs p <;>
    simp [write_to_file, open_file_for_writing, WriteHandle.write_all,
      flush, h, FS.update]

/-- C3 as stated is false: appending L1 = "\n" then L2 = "b" to a fresh
file yields the readable lines ["", "", "b"], not [L1, L2]. -/
theorem append_append_lines_cex :
    linesOf
        (((append_to_file (append_to_file FS.empty p0 ['\n']) p0 ['b']) p0).getD [])
      ≠ [['\n'], ['b']] := by decide

/-- C3 (amended): for L1 and L2 that contain no newline and do not end
in a carriage return, append(p, L1) then append(p, L2) from no file
leaves the file holding L1, newline, L2, newline, whose readable lines
in order are L1 then L2; a subsequent create(p, false) leaves the
filesystem unchanged, and create(p, true) then makes the file empty. -/
theorem append_append_lines (p : Path) (L1 L2 : Contents)
    (h1 : '\n' ∉ L1) (h2 : '\n' ∉ L2)
    (h3 : L1.getLast? ≠ some '\r') (h4 : L2.getLast? ≠ some '\r') :
    (append_to_file (append_to_file FS.empty p L1) p L2) p
      = some (L1 ++ newline ++ (L2 ++ newline))
    ∧ linesOf (L1 ++ newline ++ (L2 ++ newline)) = [L1, L2]
    ∧ create_file (append_to_file (append_to_file FS.empty p L1) p L2) p false
      = append_to_file (append_to_file FS.empty p L1) p L2
    ∧ (create_file
        (create_file (append_to_file (append_to_file FS.empty p L1) p L2) p false)
        p true) p = some [] := by
  have hfs1 : (append_to_file FS.empty p L1) p = some (L1 ++ newline) := by
    simpa [FS.empty] using append_to_file_apply FS.empty p L1
  have hfs2 : (append_to_file (append_to_file FS.empty p L1) p L2) p
      = some (L1 ++ newline ++ (L2 ++ newline)) := by
    simpa [hfs1, List.append_assoc] using
      append_to_file_apply (append_to_file FS.empty p L1) p L2
  have hlines : linesOf (L1 ++ newline ++ (L2 ++ newline)) = [L1, L2] := by
    simpa [newline, List.append_assoc] using linesOf_two L1 L2 h1 h2 h3 h4
  have hnoop : create_file (append_to_file (append_to_file FS.empty p L1) p L2) p false
      = append_to_file (append_to_file FS.empty p L1) p L2 := by
    simp [create_file, hfs2]
  refine ⟨hfs2, hlines, hnoop, ?_⟩
  rw [hnoop]
  simp [create_file, FS.update_self]

/-- C3 witness: the amended statement at p = "p", L1 = "a", L2 = "b". -/
theorem append_append_lines_w :
    (append_to_file (append_to_file FS.empty p0 ['a']) p0 ['b']) p0
      = some (['a'] ++ newline ++ (['b'] ++ newline))
    ∧ linesOf (['a'] ++ newline ++ (['b'] ++ newline)) = [['a'], ['b']]
    ∧ create_file (append_to_file (append_to_file FS.empty p0 ['a']) p0 ['b']) p0 false
      = append_to_file (append_to_file FS.empty p0 ['a']) p0 ['b']
    ∧ (create_file
        (create_file (append_to_file (append_to_file FS.empty p0 ['a']) p0 ['b']) p0 false)
        p0 true) p0 = some [] :=
  append_append_lines p0 ['a'] ['b'] (by decide) (by decide) (by decide) (by decide)

/-- C4: create(path, false) on an existing file is a no-op: the whole
filesystem is unchanged and the file keeps exactly its contents. -/
theorem create_no_truncate_noop (fs : FS) (p : Path) (c : Contents)
    (h : fs p = some c) :
    create_file fs p false = fs ∧ (create_file fs p false) p = some c := by
  constructor <;> simp [create_file, h]

/-- C4 witness: the no-op at the concrete file "p" holding "a". -/
theorem create_no_truncate_noop_w :
    create_file fs0 p0 false = fs0 ∧ (create_file fs0 p0 false) p0 = some ['a'] :=
  create_no_truncate_noop fs0 p0 ['a'] (by decide)

/-- C5: create(path, true) on an existing file leaves the file present
with zero length. -/
theorem create_truncate_empties (fs : FS) (p : Path) (c : Contents)
    (h : fs p = some c) :
    (create_file fs p true) p = some [] := by
  simp [create_file, FS.update_self]

/-- C5 witness: truncating create at the concrete file "p" holding "a". -/
theorem create_truncate_empties_w :
    (create_file fs0 p0 true) p0 = some [] :=
  create_truncate_empties fs0 p0 ['a'] (by decide)

/-- C6: create(path, false) is idempotent: calling it twice yields the
same filesystem as calling it once, from any starting filesystem. -/
theorem create_no_truncate_idem (fs : FS) (p : Path) :
    create_file (create_file fs p false) p false = create_file fs p false := by
  cases h : fs p <;> simp [create_file, h, FS.update_self]

/-- C7: open_for_reading on an existing file returns a handle at byte
offset 0; on a missing file it returns no handle; and any open error,
whatever its cause, is collapsed to no handle with the cause discarded. -/
theorem open_file_spec (fs : FS) (p : Path) :
    (∀ c : Contents, fs p = some c → open_file fs p = some (ReadHandle.mk c 0))
    ∧ (fs p = none → open_file fs p = none)
    ∧ (∀ e : IOError, open_file_from (Except.error e) = none) := by
  refine ⟨fun c h => ?_, fun h => ?_, fun e => rfl⟩ <;>
    simp [open_file, osFileOpen, open_file_from, h]

/-- C7 witness: an existing file gives a handle at offset 0, a missing
file gives none, and a permission-denied open error collapses to none. -/
theorem open_file_spec_w :
    open_file fs0 p0 = some (ReadHandle.mk ['a'] 0)
    ∧ open_file FS.empty p0 = none
    ∧ open_file_from (Except.error IOError.permissionDenied) = none :=
  ⟨(open_file_spec fs0 p0).1 ['a'] (by decide),
   (open_file_spec FS.empty p0).2.1 rfl,
   (open_file_spec fs0 p0).2.2 IOError.permissionDenied⟩

/-- C8: writing without truncation overwrites in place from the start:
when the file held D with length C at most length D, it afterwards
holds C followed by the bytes of D from position length C onward. -/
theorem write_no_truncate_overwrites (fs : FS) (p : Path) (c d : Contents)
    (hd : fs p = some d) (hl : c.length ≤ d.length) :
    (write_to_file fs p false c) p = some (c ++ d.drop c.length) := by
  simp [write_to_file, open_file_for_writing, WriteHandle.write_all,
    flush, hd, FS.update]

/-- C8 witness: overwriting the one-character file "a" with "x" leaves
exactly "x". -/
theorem write_no_truncate_overwrites_w :
    (write_to_file fs0 p0 false ['x']) p0
      = some (['x'] ++ List.drop (List.length ['x']) ['a']) :=
  write_no_truncate_overwrites fs0 p0 ['x'] ['a'] (by decide) (by decide)

/-- C9: every operation returning a write or append handle leaves a
filesystem entry at the path the moment the handle is constructed,
created if it was absent. -/
theorem returned_handle_file_exists (fs : FS) (p : Path) (t : Bool) :
    (((open_file_for_writing fs p t).1) p).isSome = true
    ∧ (((open_file_for_appending fs p).1) p).isSome = true
    ∧ (((open_buffered_file_writer fs p t).1) p).isSome = true
    ∧ (((open_buffered_file_appender fs p).1) p).isSome = true := by
  cases h : fs p <;> cases t <;>
    simp [open_file_for_writing, open_file_for_appending,
      open_buffered_file_writer, open_buffered_file_appender, h, FS.update_self]

/-- C10: appending the empty string to an existing file still grows it
by exactly one newline terminator. -/
theorem append_empty_adds_newline (fs : FS) (p : Path) (d : Contents)
    (h : fs p = some d) :
    (append_to_file fs p []) p = some (d ++ newline) := by
  simpa [h] using append_to_file_apply fs p []

/-- C10 witness: appending the empty string to the file "a" leaves
"a" followed by a newline. -/
theorem append_empty_adds_newline_w :
    (append_to_file fs0 p0 []) p0 = some (['a'] ++ newline) :=
  append_empty_adds_newline fs0 p0 ['a'] (by decide)

end FileManager
